import Mathlib

set_option maxHeartbeats 1000000

/-!
Shallow embedding of the report pipeline of `ldapdomaindump`
(`src/ldapdomaindump/__init__.py`) and proofs about it.

Conventions of the embedding:
* Python dictionaries are modelled as insertion-ordered association lists
  (`dictAppend` / `setKey` reproduce `d[k].append(v)` / `d[k] = v`).
* An uncaught Python exception that aborts the surrounding computation is
  modelled by `Option.none` propagating out of the translated function.
* Attribute payloads in the modelled domain are strings and integers
  (timestamps can be carried as strings; the `datetime` branch of
  `formatString` is outside the modelled value domain).
* Bit-flag attribute fields (`userAccountControl`, `pwdProperties`) are
  non-negative integers in the directory data model, so `parseFlags`
  takes a `Nat`.
-/

/-- Value of a single LDAP attribute in the modelled domain. -/
inductive AttrValue where
  | str (s : String)
  | int (z : Int)
deriving DecidableEq, Repr

/-- Natural string form of a raw value (Python `str`-coercion of the payload). -/
def strOf : AttrValue → String
  | .str s => s
  | .int z => toString z

/-- Integer payload of a value; flag and interval branches of the formatters
are only reached with integer payloads, a string payload there is outside the
modelled domain and mapped to 0. -/
def intOf : AttrValue → Int
  | .str _ => 0
  | .int z => z

/-- Non-negative integer payload, used by the bit-flag decoding branches. -/
def natOf (v : AttrValue) : Nat := (intOf v).toNat

/-- Model of an `ldap3` attribute object as the source duck-types it:
`key` is the attribute name, `value` the single-value accessor, `values`
the multi-value accessor, and `valuesIsList` records the outcome of the
source's `type(att.values) is list` test. -/
structure LdapAttribute where
  key : String
  value : AttrValue
  values : List AttrValue
  valuesIsList : Bool
deriving DecidableEq, Repr

/-- Model of an `ldap3` entry: a bag of named attributes. Absence of a name
in `attrs` models the `LDAPKeyError`/`LDAPAttributeError` raising state. -/
structure LdapEntry where
  attrs : List (String × LdapAttribute)
deriving DecidableEq, Repr

/-- Attribute lookup on an entry; `none` models the raised
`LDAPKeyError`/`LDAPAttributeError` for an absent attribute. -/
def lookupAttr (e : LdapEntry) (name : String) : Option LdapAttribute :=
  e.attrs.lookup name

/-- Python `str.lower` on the modelled (ASCII) attribute names. -/
def lowerStr (s : String) : String := ⟨s.data.map Char.toLower⟩

/-- Python `sep.join(parts)`. -/
def joinWith (sep : String) : List String → String
  | [] => ""
  | [x] => x
  | x :: y :: rest => x ++ sep ++ joinWith sep (y :: rest)

/-- User account control flag table, in source insertion order
(module-level `uac_flags`). -/
def uac_flags : List (String × Nat) :=
  [("ACCOUNT_DISABLED", 0x00000002),
   ("ACCOUNT_LOCKED", 0x00000010),
   ("PASSWD_NOTREQD", 0x00000020),
   ("PASSWD_CANT_CHANGE", 0x00000040),
   ("NORMAL_ACCOUNT", 0x00000200),
   ("WORKSTATION_ACCOUNT", 0x00001000),
   ("SERVER_TRUST_ACCOUNT", 0x00002000),
   ("DONT_EXPIRE_PASSWD", 0x00010000),
   ("SMARTCARD_REQUIRED", 0x00040000),
   ("PASSWORD_EXPIRED", 0x00800000)]

/-- Password policy flag table, in source insertion order
(module-level `pwd_flags`). -/
def pwd_flags : List (String × Nat) :=
  [("PASSWORD_COMPLEX", 0x01),
   ("PASSWORD_NO_ANON_CHANGE", 0x02),
   ("PASSWORD_NO_CLEAR_CHANGE", 0x04),
   ("LOCKOUT_ADMINS", 0x08),
   ("PASSWORD_STORE_CLEARTEXT", 0x10),
   ("REFUSE_PASSWORD_CHANGE", 0x20)]

/-- Pretty-name table for column headers (module-level `attr_translations`). -/
def attr_translations : List (String × String) :=
  [("sAMAccountName", "SAM Name"),
   ("cn", "CN"),
   ("operatingSystem", "Operating System"),
   ("operatingSystemServicePack", "Service Pack"),
   ("operatingSystemVersion", "OS Version"),
   ("userAccountControl", "Flags"),
   ("objectSid", "SID"),
   ("memberOf", "Member of groups"),
   ("dNSHostName", "DNS Hostname"),
   ("whenCreated", "Created on"),
   ("whenChanged", "Changed on"),
   ("IPv4", "IPv4 Address"),
   ("lockOutObservationWindow", "Lockout time window"),
   ("lockoutDuration", "Lockout Duration"),
   ("lockoutThreshold", "Lockout Threshold"),
   ("maxPwdAge", "Max password age"),
   ("minPwdAge", "Min password age"),
   ("minPwdLength", "Min password length")]

/-- Translation of `reportWriter.parseFlags`: collect the names of the table
entries whose mask has a nonzero bitwise AND with the attribute value, in
table iteration order. -/
def parseFlags (value : Nat) (flagsDef : List (String × Nat)) : List String :=
  (flagsDef.filter (fun p => value &&& p.2 != 0)).map Prod.fst

/-- Names of the table entries whose mask is a submask of `value`, in table
order; the claim's characterisation of the flag decoder. -/
def submaskNames (value : Nat) (flagsDef : List (String × Nat)) : List String :=
  (flagsDef.filter (fun p => p.2 &&& value == p.2)).map Prod.fst

lemma mask_test_iff (k v : Nat) :
    ((v &&& 2 ^ k != 0) = ((2 ^ k &&& v) == 2 ^ k)) := by
  rw [Nat.and_two_pow, Nat.two_pow_and]
  have h2 : 2 ^ k ≠ 0 := (Nat.two_pow_pos k).ne'
  cases h : v.testBit k
  · simp [Ne.symm h2]
  · simp [h2]

lemma mask_test_iff_of_eq (m k v : Nat) (hm : m = 2 ^ k) :
    ((v &&& m != 0) = ((m &&& v) == m)) := by
  subst hm; exact mask_test_iff k v

/-- Every mask in the account-control flag table is a single bit. -/
lemma uac_single_bit : ∀ p ∈ uac_flags, ∃ k, p.2 = 2 ^ k := by
  intro p hp
  simp only [uac_flags, List.mem_cons, List.not_mem_nil, or_false] at hp
  rcases hp with h | h | h | h | h | h | h | h | h | h <;> subst h
  exacts [⟨1, rfl⟩, ⟨4, rfl⟩, ⟨5, rfl⟩, ⟨6, rfl⟩, ⟨9, rfl⟩, ⟨12, rfl⟩,
    ⟨13, rfl⟩, ⟨16, rfl⟩, ⟨18, rfl⟩, ⟨23, rfl⟩]

/-- Every mask in the password-policy flag table is a single bit. -/
lemma pwd_single_bit : ∀ p ∈ pwd_flags, ∃ k, p.2 = 2 ^ k := by
  intro p hp
  simp only [pwd_flags, List.mem_cons, List.not_mem_nil, or_false] at hp
  rcases hp with h | h | h | h | h | h <;> subst h
  exacts [⟨0, rfl⟩, ⟨1, rfl⟩, ⟨2, rfl⟩, ⟨3, rfl⟩, ⟨4, rfl⟩, ⟨5, rfl⟩]

lemma parseFlags_eq_submaskNames (v : Nat) (table : List (String × Nat))
    (h : ∀ p ∈ table, ∃ k, p.2 = 2 ^ k) :
    parseFlags v table = submaskNames v table := by
  unfold parseFlags submaskNames
  congr 1
  apply List.filter_congr
  intro p hp
  obtain ⟨k, hk⟩ := h p hp
  exact mask_test_iff_of_eq p.2 k v hk

/-- C1: for both bit-flag tables, the decoder returns exactly the flag names
whose bitmask is a submask of the attribute value, joined with `", "` in
table-iteration order; when no flag's mask intersects the value the result is
the empty string. -/
theorem claim_C1 (v : Nat) :
    joinWith ", " (parseFlags v uac_flags) = joinWith ", " (submaskNames v uac_flags)
    ∧ joinWith ", " (parseFlags v pwd_flags) = joinWith ", " (submaskNames v pwd_flags)
    ∧ ((∀ p ∈ uac_flags, v &&& p.2 = 0) → joinWith ", " (parseFlags v uac_flags) = "")
    ∧ ((∀ p ∈ pwd_flags, v &&& p.2 = 0) → joinWith ", " (parseFlags v pwd_flags) = "") := by
  refine ⟨?_, ?_, ?_, ?_⟩
  · rw [parseFlags_eq_submaskNames v uac_flags uac_single_bit]
  · rw [parseFlags_eq_submaskNames v pwd_flags pwd_single_bit]
  · intro h
    have : parseFlags v uac_flags = [] := by
      unfold parseFlags
      rw [List.filter_eq_nil_iff.mpr (by intro p hp; simpa using h p hp)]
      rfl
    rw [this]; rfl
  · intro h
    have : parseFlags v pwd_flags = [] := by
      unfold parseFlags
      rw [List.filter_eq_nil_iff.mpr (by intro p hp; simpa using h p hp)]
      rfl
    rw [this]; rfl

/-- Witness for C1 at concrete inputs: value 0 decodes to the empty string,
and 0x210 decodes to the two set flags in table order. -/
theorem claim_C1_witness :
    joinWith ", " (parseFlags 0 uac_flags) = ""
    ∧ joinWith ", " (parseFlags 0x210 uac_flags)
        = joinWith ", " (submaskNames 0x210 uac_flags) :=
  ⟨(claim_C1 0).2.2.1 (by decide), (claim_C1 0x210).1⟩

/-- Special DN characters, in the exact iteration order of the source's
unescape loop (`for c in ' "#+,;<=>\\\00'`): space, double quote, hash,
plus, comma, semicolon, less-than, equals, greater-than, backslash, NUL. -/
def specialChars : List Char :=
  [' ', '"', '#', '+', ',', ';', '<', '=', '>', '\\', '\x00']

/-- Python `s.replace(esc ++ c, c)` for a two-character pattern: scan left to
right, non-overlapping, replacing every occurrence of `esc, c` by `c`. -/
def replacePair (esc c : Char) : List Char → List Char
  | [] => []
  | [x] => [x]
  | x :: y :: rest =>
    if x = esc ∧ y = c then c :: replacePair esc c rest
    else x :: replacePair esc c (y :: rest)

/-- Translation of `unescapecn` (identical in `domainDumper` and
`reportWriter`): sequentially replace `'\' ++ c` by `c` for each special
character, in the source's fixed order. -/
def unescapecnL (l : List Char) : List Char :=
  specialChars.foldl (fun acc c => replacePair '\\' c acc) l

/-- String-level `unescapecn`. -/
def unescapecn (s : String) : String := ⟨unescapecnL s.data⟩

/-- Escape every character of `S` by prefixing a backslash; `escDn specialChars`
is the DN escaping of the claim, the partially-unescaped intermediate states
use smaller `S`. -/
def escDn (S : List Char) (l : List Char) : List Char :=
  l.flatMap (fun c => if c ∈ S then ['\\', c] else [c])

/-- Modelled from the spec: DN escaping prepends a backslash to each character
of the special set (escaping is done by the DN producer, outside this repo). -/
def escapeDn (s : String) : String := ⟨escDn specialChars s.data⟩

lemma replacePair_cons_ne (esc c x : Char) (h : x ≠ esc) (l : List Char) :
    replacePair esc c (x :: l) = x :: replacePair esc c l := by
  cases l with
  | nil => rfl
  | cons y rest =>
    rw [replacePair]
    simp [h]

lemma escDn_nil (S : List Char) : escDn S [] = [] := rfl

lemma escDn_cons (S : List Char) (x : Char) (t : List Char) :
    escDn S (x :: t) = (if x ∈ S then ['\\', x] else [x]) ++ escDn S t := by
  simp [escDn]

/-- Unescaping one non-backslash special character from the partially escaped
form removes exactly that character from the escaped set; the second conjunct
handles a dangling backslash immediately in front of the escaped tail. -/
lemma replacePair_escDn (c : Char) (hc : c ≠ '\\') (S : List Char)
    (hNd : S.Nodup) (hcS : c ∈ S) :
    ∀ l : List Char,
      replacePair '\\' c (escDn S l) = escDn (S.erase c) l
      ∧ replacePair '\\' c ('\\' :: escDn S l) = '\\' :: escDn (S.erase c) l := by
  intro l
  induction l with
  | nil => exact ⟨rfl, rfl⟩
  | cons x t ih =>
    have hmain : replacePair '\\' c (escDn S (x :: t)) = escDn (S.erase c) (x :: t) := by
      rw [escDn_cons, escDn_cons]
      by_cases hx : x ∈ S
      · rw [if_pos hx]
        by_cases hxc : x = c
        · subst hxc
          have hnotc : x ∉ S.erase x := fun hmem =>
            ((hNd.mem_erase_iff).mp hmem).1 rfl
          rw [if_neg hnotc]
          show replacePair '\\' x ('\\' :: x :: escDn S t) = x :: escDn (S.erase x) t
          show (if ('\\' : Char) = '\\' ∧ x = x then x :: replacePair '\\' x (escDn S t)
                else '\\' :: replacePair '\\' x (x :: escDn S t))
              = x :: escDn (S.erase x) t
          rw [if_pos ⟨rfl, rfl⟩, ih.1]
        · have hxe : x ∈ S.erase c := by
            rw [hNd.mem_erase_iff]
            exact ⟨hxc, hx⟩
          rw [if_pos hxe]
          show (if ('\\' : Char) = '\\' ∧ x = c then c :: replacePair '\\' c (escDn S t)
                else '\\' :: replacePair '\\' c (x :: escDn S t))
              = '\\' :: x :: escDn (S.erase c) t
          rw [if_neg (fun h => hxc h.2)]
          by_cases hxb : x = '\\'
          · subst hxb
            rw [ih.2]
          · rw [replacePair_cons_ne '\\' c x hxb, ih.1]
      · rw [if_neg hx]
        have hxe : x ∉ S.erase c := fun hmem => hx (List.mem_of_mem_erase hmem)
        rw [if_neg hxe]
        by_cases hxb : x = '\\'
        · subst hxb
          show replacePair '\\' c ('\\' :: escDn S t) = '\\' :: escDn (S.erase c) t
          exact ih.2
        · show replacePair '\\' c (x :: escDn S t) = x :: escDn (S.erase c) t
          rw [replacePair_cons_ne '\\' c x hxb, ih.1]
    refine ⟨hmain, ?_⟩
    cases hE : escDn S (x :: t) with
    | nil =>
      rw [hE] at hmain
      have h2 : escDn (S.erase c) (x :: t) = [] := hmain.symm
      rw [h2]
      rfl
    | cons h0 tl =>
      rw [hE] at hmain
      have hh0 : h0 ≠ c := by
        rw [escDn_cons] at hE
        by_cases hx : x ∈ S
        · rw [if_pos hx] at hE
          have h1 : '\\' = h0 := by injection hE
          rw [← h1]
          exact Ne.symm hc
        · rw [if_neg hx] at hE
          have h1 : x = h0 := by injection hE
          rw [← h1]
          intro hxc
          exact hx (hxc ▸ hcS)
      show (if ('\\' : Char) = '\\' ∧ h0 = c then c :: replacePair '\\' c tl
            else '\\' :: replacePair '\\' c (h0 :: tl))
          = '\\' :: escDn (S.erase c) (x :: t)
      rw [if_neg (fun h => hh0 h.2), hmain]

/-- Unescaping the backslash itself: left-to-right non-overlapping pairing
collapses every escaped backslash exactly once, provided backslash is still
in the escaped set. -/
lemma replacePair_escDn_bs (S : List Char) (hNd : S.Nodup) (hbs : '\\' ∈ S) :
    ∀ l : List Char,
      replacePair '\\' '\\' (escDn S l) = escDn (S.erase '\\') l := by
  intro l
  induction l with
  | nil => rfl
  | cons x t ih =>
    rw [escDn_cons, escDn_cons]
    by_cases hx : x ∈ S
    · rw [if_pos hx]
      by_cases hxb : x = '\\'
      · subst hxb
        have hnot : ('\\' : Char) ∉ S.erase '\\' := fun hmem =>
          ((hNd.mem_erase_iff).mp hmem).1 rfl
        rw [if_neg hnot]
        show (if ('\\' : Char) = '\\' ∧ ('\\' : Char) = '\\' then
                '\\' :: replacePair '\\' '\\' (escDn S t)
              else '\\' :: replacePair '\\' '\\' ('\\' :: escDn S t))
            = '\\' :: escDn (S.erase '\\') t
        rw [if_pos ⟨rfl, rfl⟩, ih]
      · have hxe : x ∈ S.erase '\\' := by
          rw [hNd.mem_erase_iff]
          exact ⟨hxb, hx⟩
        rw [if_pos hxe]
        show (if ('\\' : Char) = '\\' ∧ x = '\\' then '\\' :: replacePair '\\' '\\' (escDn S t)
              else '\\' :: replacePair '\\' '\\' (x :: escDn S t))
            = '\\' :: x :: escDn (S.erase '\\') t
        rw [if_neg (fun h => hxb h.2), replacePair_cons_ne '\\' '\\' x hxb, ih]
    · rw [if_neg hx]
      have hxe : x ∉ S.erase '\\' := fun hmem => hx (List.mem_of_mem_erase hmem)
      rw [if_neg hxe]
      have hxb : x ≠ '\\' := fun h => hx (h ▸ hbs)
      show replacePair '\\' '\\' (x :: escDn S t) = x :: escDn (S.erase '\\') t
      rw [replacePair_cons_ne '\\' '\\' x hxb, ih]

lemma escDn_empty_set (l : List Char) : escDn [] l = l := by
  induction l with
  | nil => rfl
  | cons x t ih =>
    rw [escDn_cons, if_neg (List.not_mem_nil x), ih]
    rfl

/-- C9: unescaping the DN-escaped form of any character sequence recovers it:
the source's sequential replacement loop inverts the DN escaping for the full
special set, in the loop's fixed order. -/
theorem claim_C9 (s : String) : unescapecn (escapeDn s) = s := by
  have core : ∀ l : List Char, unescapecnL (escDn specialChars l) = l := by
    intro l
    show replacePair '\\' '\x00' (replacePair '\\' '\\' (replacePair '\\' '>'
          (replacePair '\\' '=' (replacePair '\\' '<' (replacePair '\\' ';'
            (replacePair '\\' ',' (replacePair '\\' '+' (replacePair '\\' '#'
              (replacePair '\\' '"' (replacePair '\\' ' '
                (escDn specialChars l))))))))))) = l
    rw [(replacePair_escDn ' ' (by decide) specialChars (by decide) (by decide) l).1]
    rw [(replacePair_escDn '"' (by decide) (specialChars.erase ' ') (by decide) (by decide) l).1]
    rw [(replacePair_escDn '#' (by decide) ((specialChars.erase ' ').erase '"') (by decide) (by decide) l).1]
    rw [(replacePair_escDn '+' (by decide) (((specialChars.erase ' ').erase '"').erase '#') (by decide) (by decide) l).1]
    rw [(replacePair_escDn ',' (by decide) ((((specialChars.erase ' ').erase '"').erase '#').erase '+') (by decide) (by decide) l).1]
    rw [(replacePair_escDn ';' (by decide) (((((specialChars.erase ' ').erase '"').erase '#').erase '+').erase ',') (by decide) (by decide) l).1]
    rw [(replacePair_escDn '<' (by decide) ((((((specialChars.erase ' ').erase '"').erase '#').erase '+').erase ',').erase ';') (by decide) (by decide) l).1]
    rw [(replacePair_escDn '=' (by decide) (((((((specialChars.erase ' ').erase '"').erase '#').erase '+').erase ',').erase ';').erase '<') (by decide) (by decide) l).1]
    rw [(replacePair_escDn '>' (by decide) ((((((((specialChars.erase ' ').erase '"').erase '#').erase '+').erase ',').erase ';').erase '<').erase '=') (by decide) (by decide) l).1]
    rw [replacePair_escDn_bs (((((((((specialChars.erase ' ').erase '"').erase '#').erase '+').erase ',').erase ';').erase '<').erase '=').erase '>') (by decide) (by decide) l]
    rw [(replacePair_escDn '\x00' (by decide) ((((((((((specialChars.erase ' ').erase '"').erase '#').erase '+').erase ',').erase ';').erase '<').erase '=').erase '>').erase '\\') (by decide) (by decide) l).1]
    have h0 : (((((((((((specialChars.erase ' ').erase '"').erase '#').erase '+').erase ',').erase ';').erase '<').erase '=').erase '>').erase '\\').erase '\x00') = ([] : List Char) := by decide
    rw [h0, escDn_empty_set]
  show (⟨unescapecnL (escDn specialChars s.data)⟩ : String) = s
  rw [core s.data]

/-- Replace every occurrence of the character `c` in a string by `rep`
(one step of the source's sequential `htmlescape` replace chain; all
patterns there are single characters, so per-character expansion is exact). -/
def replaceChar (c : Char) (rep : String) (s : String) : String :=
  ⟨s.data.flatMap (fun x => if x = c then rep.data else [x])⟩

/-- Translation of `reportWriter.htmlescape`: sequential replacement of the
five HTML special characters, in source order (ampersand first). -/
def htmlescape (s : String) : String :=
  replaceChar '"' "&quot;"
    (replaceChar '\'' "&#39;"
      (replaceChar '>' "&gt;"
        (replaceChar '<' "&lt;"
          (replaceChar '&' "&amp;" s))))

/-- Characters the source's `formatId` regex `[^a-zA-Z0-9_\-]+` keeps. -/
def idAllowed (c : Char) : Bool := c.isAlphanum || c = '_' || c = '-'

/-- Scanner for `formatId`: `collapsing` records whether the previous input
character was already replaced by an underscore, so a whole run of disallowed
characters yields a single underscore, as the `+` in the regex does. -/
def formatIdAux (collapsing : Bool) : List Char → List Char
  | [] => []
  | c :: rest =>
    if idAllowed c then c :: formatIdAux false rest
    else if collapsing then formatIdAux true rest
    else '_' :: formatIdAux true rest

/-- Translation of `reportWriter.formatId`: replace every run of characters
outside `[a-zA-Z0-9_-]` with a single underscore. -/
def formatId (cn : String) : String := ⟨formatIdAux false cn.data⟩

/-- Hex digit for percent-encoding. -/
def hexDigit (n : Nat) : Char :=
  if n < 10 then Char.ofNat (48 + n) else Char.ofNat (55 + n)

/-- Model of Python 2 `urllib.quote_plus` on the modelled (ASCII) domain:
letters, digits and `_.-` pass through, a space becomes `+`, anything else is
percent-encoded; in the pipeline it is only applied to `formatId` output,
which contains no character outside `[a-zA-Z0-9_-]`. -/
def quotePlus (s : String) : String :=
  ⟨s.data.flatMap (fun c =>
    if c.isAlphanum || c = '_' || c = '.' || c = '-' then [c]
    else if c = ' ' then ['+']
    else ['%', hexDigit (c.toNat % 256 / 16), hexDigit (c.toNat % 16)])⟩

/-- Modelled from the spec: `ldap3.utils.dn.parse_dn` is external library
code; per the spec the first RDN component's value is the text between the
first `=` and the first unescaped `,`, with escape sequences left intact
(the caller unescapes them afterwards). `dnValueChars` collects that text. -/
def dnValueChars : List Char → List Char
  | [] => []
  | '\\' :: c :: rest => '\\' :: c :: dnValueChars rest
  | c :: rest => if c = ',' then [] else c :: dnValueChars rest

/-- Characters after the first `=` of a DN. -/
def dnAfterEq : List Char → List Char
  | [] => []
  | c :: rest => if c = '=' then rest else dnAfterEq rest

/-- Value of the first RDN of a DN (spec-modelled stand-in for
`dn.parse_dn(dnin)[0][1]`). -/
def parseDnFirstValue (s : String) : String := ⟨dnValueChars (dnAfterEq s.data)⟩

/-- Translation of `domainDumper.getGroupCnFromDn`: first RDN value,
unescaped. -/
def getGroupCnFromDn (dnin : String) : String := unescapecn (parseDnFirstValue dnin)

/-- Translation of `reportWriter.formatString` on the modelled value domain
(strings pass through, integers are stringified; the `datetime` branch is
outside the modelled domain). -/
def formatString (v : AttrValue) : String := strOf v

/-- Output configuration, translated from `domainDumpConfig.__init__`; the
greppable-field delimiter is modelled as the single character it is by
default. -/
structure domainDumpConfig where
  basepath : String := "."
  groupsfile : String := "domain_groups"
  usersfile : String := "domain_users"
  computersfile : String := "domain_computers"
  policyfile : String := "domain_policy"
  users_by_group : String := "domain_users_by_group"
  computers_by_os : String := "domain_computers_by_os"
  outputhtml : Bool := true
  outputjson : Bool := true
  outputgrep : Bool := true
  grepsplitchar : Char := '\t'
  lookuphostnames : Bool := false
deriving DecidableEq, Repr

/-- Translation of `reportWriter.formatGroupsHtml`: link each group DN to its
anchor in the users-by-group report. -/
def formatGroupsHtml (cfg : domainDumpConfig) (grouplist : List AttrValue) : String :=
  joinWith ", " (grouplist.map (fun g =>
    let gs := strOf g
    let cn := unescapecn (parseDnFirstValue gs)
    "<a href=\"" ++ cfg.users_by_group ++ ".html#cn_" ++ quotePlus (formatId cn)
      ++ "\" title=\"" ++ htmlescape gs ++ "\">" ++ htmlescape cn ++ "</a>"))

/-- Translation of `reportWriter.formatGroupsGrep`: bare unescaped first-RDN
names. -/
def formatGroupsGrep (grouplist : List AttrValue) : String :=
  joinWith ", " (grouplist.map (fun g => unescapecn (parseDnFirstValue (strOf g))))

/-- Decimal rendering with a fixed number of fractional digits of the exact
rational `ticks / den`, rounding half-up: models the `'%.2f' / '%.1f'`
formatting of the float `abs(value) * 1e-7 / unit` (float rounding can differ
from exact rounding only in representation edge cases; no claim depends on
the digits). -/
def fmtFixed (digits : Nat) (num den : Nat) : String :=
  let scale := 10 ^ digits
  let r := (num * scale + den / 2) / den
  let ip := r / scale
  let fp := r % scale
  let fpStr := toString fp
  let pad := String.mk (List.replicate (digits - fpStr.length) '0')
  toString ip ++ "." ++ pad ++ fpStr

/-- Translation of `nsToDays` composed with the `'%.2f days'` formatting of
`formatAttribute`/`formatGrepAttribute`. -/
def formatDays (z : Int) : String :=
  fmtFixed 2 z.natAbs (10 ^ 7 * 86400) ++ " days"

/-- Translation of `nsToMinutes` composed with the `'%.1f minutes'`
formatting. -/
def formatMinutes (z : Int) : String :=
  fmtFixed 1 z.natAbs (10 ^ 7 * 60) ++ " minutes"

/-- Translation of `reportWriter.formatAttribute`, keeping Python's operator
precedence in the membership branch: `aname == 'member' or (aname ==
'memberof' and type(att.values) is list)`. -/
def formatAttribute (cfg : domainDumpConfig) (att : LdapAttribute) : String :=
  if lowerStr att.key = "useraccountcontrol" then
    joinWith ", " (parseFlags (natOf att.value) uac_flags)
  else if lowerStr att.key = "member"
      ∨ (lowerStr att.key = "memberof" ∧ att.valuesIsList) then
    formatGroupsHtml cfg att.values
  else if lowerStr att.key = "pwdproperties" then
    joinWith ", " (parseFlags (natOf att.value) pwd_flags)
  else if lowerStr att.key = "minpwdage" ∨ lowerStr att.key = "maxpwdage" then
    formatDays (intOf att.value)
  else if lowerStr att.key = "lockoutobservationwindow"
      ∨ lowerStr att.key = "lockoutduration" then
    formatMinutes (intOf att.value)
  else
    htmlescape (formatString att.value)

/-- Translation of `reportWriter.formatGrepAttribute` (same decision table,
flat output, no HTML escaping). -/
def formatGrepAttribute (att : LdapAttribute) : String :=
  if lowerStr att.key = "useraccountcontrol" then
    joinWith ", " (parseFlags (natOf att.value) uac_flags)
  else if lowerStr att.key = "member"
      ∨ (lowerStr att.key = "memberof" ∧ att.valuesIsList) then
    formatGroupsGrep att.values
  else if lowerStr att.key = "pwdproperties" then
    joinWith ", " (parseFlags (natOf att.value) pwd_flags)
  else if lowerStr att.key = "minpwdage" ∨ lowerStr att.key = "maxpwdage" then
    formatDays (intOf att.value)
  else if lowerStr att.key = "lockoutobservationwindow"
      ∨ lowerStr att.key = "lockoutduration" then
    formatMinutes (intOf att.value)
  else
    formatString att.value

/-- Default configuration (all `domainDumpConfig.__init__` defaults). -/
def cfgDefault : domainDumpConfig := {}

/-- C10: an attribute whose lowercased name is exactly `member` gets the
group-DN rendering in both formatters regardless of the values-is-a-list
test, while for `memberof` the test gates the branch (Python parses the
condition as `A or (B and C)`). -/
theorem claim_C10 (cfg : domainDumpConfig) (att : LdapAttribute) :
    (lowerStr att.key = "member" →
      formatAttribute cfg att = formatGroupsHtml cfg att.values
      ∧ formatGrepAttribute att = formatGroupsGrep att.values)
    ∧ (lowerStr att.key = "memberof" → att.valuesIsList = false →
      formatAttribute cfg att = htmlescape (formatString att.value)
      ∧ formatGrepAttribute att = formatString att.value) := by
  constructor
  · intro h
    unfold formatAttribute formatGrepAttribute
    rw [h]
    exact ⟨rfl, rfl⟩
  · intro h hlist
    unfold formatAttribute formatGrepAttribute
    rw [h, hlist]
    exact ⟨rfl, rfl⟩

/-- Concrete `member` attribute whose `valuesIsList` outcome is false. -/
def attMemberNoList : LdapAttribute :=
  ⟨"member", .str "x", [.str "CN=Domain Admins,DC=test,DC=local"], false⟩

/-- Concrete `memberOf` attribute whose `valuesIsList` outcome is false. -/
def attMemberOfNoList : LdapAttribute :=
  ⟨"memberOf", .str "CN=G,DC=x", [.str "CN=G,DC=x"], false⟩

/-- Witness for C10: a `member` attribute with `valuesIsList = false` still
gets the group rendering, and a `memberof` attribute with the flag false
falls through to the default branch. -/
theorem claim_C10_witness :
    formatAttribute cfgDefault attMemberNoList
      = formatGroupsHtml cfgDefault attMemberNoList.values
    ∧ formatGrepAttribute attMemberOfNoList = "CN=G,DC=x" := by
  constructor
  · exact ((claim_C10 cfgDefault attMemberNoList).1 (by decide)).1
  · exact ((claim_C10 cfgDefault attMemberOfNoList).2 (by decide) rfl).2

/-- Column header text: the pretty alias when the translation table has one,
else the raw attribute name (the source's try/except KeyError of
`attr_translations[hdr]`). -/
def attrTranslate (hdr : String) : String :=
  match attr_translations.lookup hdr with
  | some t => t
  | none => hdr

/-- Cell emission of `generateHtmlTable`: a formatted `<td>` for a present
attribute, the `&nbsp;` placeholder cell when the lookup raises
`LDAPKeyError`. -/
def htmlCell (cfg : domainDumpConfig) (li : LdapEntry) (att : String) : String :=
  match lookupAttr li att with
  | some a => "<td>" ++ formatAttribute cfg a ++ "</td>"
  | none => "<td>&nbsp;</td>"

/-- Translation of `reportWriter.generateHtmlTable`. -/
def generateHtmlTable (cfg : domainDumpConfig) (listable : List LdapEntry)
    (attributes : List String) (header : String) (firstTable : Bool) : String :=
  String.join
    ((if firstTable then ["<table>"] else [])
      ++ (if header ≠ "" then
            ["<thead><tr><td colspan=\"" ++ toString attributes.length
              ++ "\" id=\"cn_" ++ formatId header ++ "\">" ++ header
              ++ "</td></tr></thead>"]
          else [])
      ++ ["<tbody><tr>"]
      ++ attributes.map (fun hdr => "<th>" ++ htmlescape (attrTranslate hdr) ++ "</th>")
      ++ ["</tr>\n"]
      ++ listable.map (fun li =>
            "<tr>" ++ String.join (attributes.map (htmlCell cfg li)) ++ "</tr>\n")
      ++ ["</tbody>\n"])

/-- Field emission of `generateGrepList`: the flat-text formatting of a
present attribute, the empty string when the lookup raises `LDAPKeyError`. -/
def grepField (e : LdapEntry) (attr : String) : String :=
  match lookupAttr e attr with
  | some a => formatGrepAttribute a
  | none => ""

/-- Lines of the greppable output: the header line of attribute names, then
one delimiter-joined line per entry (translation of
`reportWriter.generateGrepList` before the final newline join). -/
def generateGrepLines (d : Char) (entrylist : List LdapEntry)
    (attributes : List String) : List String :=
  joinWith (String.singleton d) attributes
    :: entrylist.map (fun e => joinWith (String.singleton d) (attributes.map (grepField e)))

/-- Translation of `reportWriter.generateGrepList`: the newline join of the
header line and the per-entry lines. -/
def generateGrepList (d : Char) (entrylist : List LdapEntry)
    (attributes : List String) : String :=
  joinWith "\n" (generateGrepLines d entrylist attributes)

/-- C4: a missing attribute renders as the documented blank placeholder in
both renderers — the `&nbsp;` table cell in the markup output and the empty
field in the flat-text output — and both cell emitters are total functions,
so absence never aborts a report. -/
theorem claim_C4 (cfg : domainDumpConfig) (e : LdapEntry) (a : String)
    (h : lookupAttr e a = none) :
    htmlCell cfg e a = "<td>&nbsp;</td>" ∧ grepField e a = "" := by
  unfold htmlCell grepField
  rw [h]
  exact ⟨rfl, rfl⟩

/-- Concrete entry with a single `cn` attribute. -/
def entryCnOnly : LdapEntry :=
  ⟨[("cn", ⟨"cn", .str "WS01", [.str "WS01"], true⟩)]⟩

/-- Witness for C4 at a concrete entry lacking `description`. -/
theorem claim_C4_witness :
    htmlCell cfgDefault entryCnOnly "description" = "<td>&nbsp;</td>"
    ∧ grepField entryCnOnly "description" = "" :=
  claim_C4 cfgDefault entryCnOnly "description" (by decide)

/-- Number of fields `line.split(d)` yields in Python for a single-character
delimiter: one more than the number of delimiter occurrences. -/
def fieldCount (d : Char) (s : String) : Nat := s.data.count d + 1

lemma count_joinWith (d : Char) :
    ∀ parts : List String,
      (joinWith (String.singleton d) parts).data.count d
        = (parts.length - 1) + (parts.map (fun p => p.data.count d)).sum
  | [] => by simp [joinWith]
  | [x] => by simp [joinWith]
  | x :: y :: rest => by
    have ih := count_joinWith d (y :: rest)
    show ((x ++ String.singleton d ++ joinWith (String.singleton d) (y :: rest))).data.count d
        = _
    rw [String.data_append, String.data_append]
    rw [List.count_append, List.count_append]
    rw [ih]
    have hsing : (String.singleton d).data.count d = 1 := by
      simp [String.singleton]
    rw [hsing]
    simp only [List.length_cons, List.map_cons, List.sum_cons]
    omega

lemma count_joinWith_free (d : Char) (parts : List String)
    (h : ∀ p ∈ parts, d ∉ p.data) :
    (joinWith (String.singleton d) parts).data.count d = parts.length - 1 := by
  rw [count_joinWith]
  have hz : (parts.map (fun p => p.data.count d)).sum = 0 := by
    apply List.sum_eq_zero
    intro x hx
    obtain ⟨p, hp, hpe⟩ := List.mem_map.mp hx
    rw [← hpe]
    exact List.count_eq_zero.mpr (h p hp)
  rw [hz]
  omega

/-- Concrete entry whose `cn` value contains the tab delimiter. -/
def entryTabbed : LdapEntry :=
  ⟨[("cn", ⟨"cn", .str "a\tb", [.str "a\tb"], true⟩),
    ("name", ⟨"name", .str "c", [.str "c"], true⟩)]⟩

/-- Counterexample to C5 as stated: with the default tab delimiter, a value
that itself contains a tab makes the data line split into three fields while
the header splits into two. -/
theorem claim_C5_cex :
    generateGrepLines '\t' [entryTabbed] ["cn", "name"] = ["cn\tname", "a\tb\tc"]
    ∧ fieldCount '\t' "a\tb\tc" ≠ fieldCount '\t' "cn\tname" := by
  constructor
  · rfl
  · decide

/-- C5 (amended): every data line carries exactly one field per requested
attribute, so its split field count equals the header's, provided no
attribute name and no rendered field value contains the delimiter (the
renderer does not escape the delimiter inside values). -/
theorem claim_C5 (d : Char) (entrylist : List LdapEntry) (attributes : List String)
    (hAttrs : ∀ a ∈ attributes, d ∉ a.data)
    (hVals : ∀ e ∈ entrylist, ∀ a ∈ attributes, d ∉ (grepField e a).data) :
    ∀ line ∈ generateGrepLines d entrylist attributes,
      fieldCount d line = fieldCount d (joinWith (String.singleton d) attributes) := by
  intro line hline
  unfold generateGrepLines at hline
  rcases List.mem_cons.mp hline with h | h
  · rw [h]
  · obtain ⟨e, he, hEq⟩ := List.mem_map.mp h
    rw [← hEq]
    unfold fieldCount
    rw [count_joinWith_free d attributes hAttrs]
    rw [count_joinWith_free d (attributes.map (grepField e))]
    · rw [List.length_map]
    · intro p hp
      obtain ⟨a, ha, hap⟩ := List.mem_map.mp hp
      rw [← hap]
      exact hVals e he a ha

/-- Witness for C5 (amended) at a concrete input: the data line of an entry
lacking the second attribute still has the header's field count. -/
theorem claim_C5_witness :
    fieldCount '\t' "WS01\t" = fieldCount '\t' "cn\tdescription" :=
  claim_C5 '\t' [entryCnOnly] ["cn", "description"] (by decide) (by decide)
    "WS01\t" (by decide)

/-- Update `d[k].append(v)` with the `except KeyError: d[k] = [v]` fallback,
on an association-list representative of the (unordered) CPython 2 dict:
append to the entry of `k` if present, else add the new key at the end. The
list keeps keys in first-creation order; that order is a representation
artifact, not a property of the hash-ordered Python 2 dict, so claim
theorems state only permutation-invariant consequences of it — the real key
iteration order is modelled separately by `py2DictKeyOrder`. -/
def dictAppend {α γ : Type} [DecidableEq α] (d : List (α × List γ)) (k : α) (v : γ) :
    List (α × List γ) :=
  match d with
  | [] => [(k, [v])]
  | (k0, vs) :: rest =>
    if k0 = k then (k0, vs ++ [v]) :: rest else (k0, vs) :: dictAppend rest k v

/-- Classification key of `sortComputersByOS`: the `operatingSystem` value if
present, else the literal `"Unknown"` (the caught `LDAPAttributeError`). -/
def osKey (e : LdapEntry) : AttrValue :=
  match lookupAttr e "operatingSystem" with
  | some att => att.value
  | none => .str "Unknown"

/-- Loop of `domainDumper.sortComputersByOS`: one `dictAppend` per item under
its derived key, left to right (see `dictAppend` for the ordering caveat of
the association-list dict representative). -/
def groupLoop {α γ : Type} [DecidableEq α] (key : γ → α)
    (d : List (α × List γ)) : List γ → List (α × List γ)
  | [] => d
  | c :: rest => groupLoop key (dictAppend d (key c) c) rest

/-- Translation of `domainDumper.sortComputersByOS` onto the association-list
dict representative; the order of the returned pairs is the keys'
first-creation order, an artifact of that representative (the Python 2 dict
iterates in hash order). -/
def sortComputersByOS (items : List LdapEntry) : List (AttrValue × List LdapEntry) :=
  groupLoop osKey [] items

/-- Grouping as the claim describes it: one key per first occurrence, keys in
first-occurrence order, each key's member list the input-order sublist of the
items carrying that key. -/
def groupSpecBy {α γ : Type} [DecidableEq α] (key : γ → α) : List γ → List (α × List γ)
  | [] => []
  | c :: rest =>
    (key c, c :: rest.filter (fun x => decide (key x = key c)))
      :: groupSpecBy key (rest.filter (fun x => !decide (key x = key c)))
termination_by l => l.length
decreasing_by
  simp only [List.length_cons]
  exact Nat.lt_succ_of_le (List.length_filter_le _ _)

/-- Accumulator already holding some keys, extended by the matching items. -/
def extendAcc {α γ : Type} [DecidableEq α] (key : γ → α)
    (acc : List (α × List γ)) (items : List γ) : List (α × List γ) :=
  acc.map (fun p => (p.1, p.2 ++ items.filter (fun x => decide (key x = p.1))))

lemma groupSpecBy_cons {α γ : Type} [DecidableEq α] (key : γ → α) (c : γ) (rest : List γ) :
    groupSpecBy key (c :: rest)
      = (key c, c :: rest.filter (fun x => decide (key x = key c)))
          :: groupSpecBy key (rest.filter (fun x => !decide (key x = key c))) := by
  rw [groupSpecBy]

lemma extendAcc_nil {α γ : Type} [DecidableEq α] (key : γ → α)
    (acc : List (α × List γ)) : extendAcc key acc [] = acc := by
  simp [extendAcc]

lemma dictAppend_not_mem {α γ : Type} [DecidableEq α]
    (acc : List (α × List γ)) (k : α) (v : γ) (h : k ∉ acc.map Prod.fst) :
    dictAppend acc k v = acc ++ [(k, [v])] := by
  induction acc with
  | nil => rfl
  | cons p rest ih =>
    obtain ⟨k0, vs⟩ := p
    simp only [List.map_cons, List.mem_cons] at h
    push_neg at h
    show (if k0 = k then (k0, vs ++ [v]) :: rest else (k0, vs) :: dictAppend rest k v)
        = (k0, vs) :: rest ++ [(k, [v])]
    rw [if_neg (fun he => h.1 he.symm), ih h.2]
    rfl

lemma keys_dictAppend_mem {α γ : Type} [DecidableEq α]
    (acc : List (α × List γ)) (k : α) (v : γ) (h : k ∈ acc.map Prod.fst) :
    (dictAppend acc k v).map Prod.fst = acc.map Prod.fst := by
  induction acc with
  | nil => simp at h
  | cons p rest ih =>
    obtain ⟨k0, vs⟩ := p
    show (if k0 = k then (k0, vs ++ [v]) :: rest else (k0, vs) :: dictAppend rest k v).map
          Prod.fst = k0 :: rest.map Prod.fst
    by_cases hk : k0 = k
    · rw [if_pos hk]
      rfl
    · rw [if_neg hk]
      simp only [List.map_cons, List.mem_cons] at h
      rcases h with h | h
      · exact absurd h.symm hk
      · rw [List.map_cons, ih h]

lemma extendAcc_dictAppend {α γ : Type} [DecidableEq α] (key : γ → α)
    (acc : List (α × List γ)) (c : γ) (rest : List γ)
    (hmem : key c ∈ acc.map Prod.fst) (hNd : (acc.map Prod.fst).Nodup) :
    extendAcc key (dictAppend acc (key c) c) rest = extendAcc key acc (c :: rest) := by
  induction acc with
  | nil => simp at hmem
  | cons p tail ih =>
    obtain ⟨k1, vs⟩ := p
    rw [List.map_cons] at hNd
    have hk1nd : k1 ∉ tail.map Prod.fst := (List.nodup_cons.mp hNd).1
    have hNdTail : (tail.map Prod.fst).Nodup := (List.nodup_cons.mp hNd).2
    by_cases hk : k1 = key c
    · have hstep : dictAppend ((k1, vs) :: tail) (key c) c = (k1, vs ++ [c]) :: tail := by
        show (if k1 = key c then (k1, vs ++ [c]) :: tail
              else (k1, vs) :: dictAppend tail (key c) c) = (k1, vs ++ [c]) :: tail
        rw [if_pos hk]
      rw [hstep]
      unfold extendAcc
      rw [List.map_cons, List.map_cons]
      congr 1
      · show (k1, (vs ++ [c]) ++ rest.filter (fun x => decide (key x = k1)))
            = (k1, vs ++ (c :: rest).filter (fun x => decide (key x = k1)))
        rw [List.filter_cons]
        have : (decide (key c = k1)) = true := by rw [hk]; simp
        rw [this]
        simp [List.append_assoc]
      · apply List.map_congr_left
        intro p hp
        have hne : key c ≠ p.1 := by
          intro he
          apply hk1nd
          have hkp : (k1 : α) = p.1 := hk.trans he
          rw [hkp]
          exact List.mem_map.mpr ⟨p, hp, rfl⟩
        rw [List.filter_cons]
        have : (decide (key c = p.1)) = false := by simp [hne]
        rw [this]
        simp
    · have hstep : dictAppend ((k1, vs) :: tail) (key c) c
          = (k1, vs) :: dictAppend tail (key c) c := by
        show (if k1 = key c then (k1, vs ++ [c]) :: tail
              else (k1, vs) :: dictAppend tail (key c) c)
            = (k1, vs) :: dictAppend tail (key c) c
        rw [if_neg hk]
      rw [hstep]
      have hmemTail : key c ∈ tail.map Prod.fst := by
        rw [List.map_cons] at hmem
        rcases List.mem_cons.mp hmem with h | h
        · exact absurd h.symm hk
        · exact h
      unfold extendAcc
      rw [List.map_cons, List.map_cons]
      congr 1
      · show (k1, vs ++ rest.filter (fun x => decide (key x = k1)))
            = (k1, vs ++ (c :: rest).filter (fun x => decide (key x = k1)))
        rw [List.filter_cons]
        have : (decide (key c = k1)) = false :=
          decide_eq_false (fun he => hk he.symm)
        rw [this]
        simp
      · exact ih hmemTail hNdTail

lemma extendAcc_cons_not_mem {α γ : Type} [DecidableEq α] (key : γ → α)
    (acc : List (α × List γ)) (c : γ) (rest : List γ)
    (hmem : key c ∉ acc.map Prod.fst) :
    extendAcc key acc (c :: rest) = extendAcc key acc rest := by
  unfold extendAcc
  apply List.map_congr_left
  intro p hp
  have hne : key c ≠ p.1 := by
    intro he
    exact hmem (he ▸ List.mem_map.mpr ⟨p, hp, rfl⟩)
  rw [List.filter_cons]
  have : (decide (key c = p.1)) = false := by simp [hne]
  rw [this]
  simp

lemma extendAcc_append_single {α γ : Type} [DecidableEq α] (key : γ → α)
    (acc : List (α × List γ)) (k0 : α) (c : γ) (rest : List γ) :
    extendAcc key (acc ++ [(k0, [c])]) rest
      = extendAcc key acc rest ++ [(k0, c :: rest.filter (fun x => decide (key x = k0)))] := by
  unfold extendAcc
  rw [List.map_append]
  rfl

/-- Grouping-loop invariant: starting from an accumulator with distinct keys,
the loop extends the existing keys with the matching items and appends, in
first-occurrence order, one group per new key. -/
lemma groupLoop_eq {α γ : Type} [DecidableEq α] (key : γ → α) :
    ∀ (items : List γ) (acc : List (α × List γ)), (acc.map Prod.fst).Nodup →
      groupLoop key acc items
        = extendAcc key acc items
            ++ groupSpecBy key
                (items.filter (fun x => !decide (key x ∈ acc.map Prod.fst)))
  | [], acc, _ => by
    show acc = extendAcc key acc [] ++ groupSpecBy key ([].filter _)
    rw [extendAcc_nil]
    show acc = acc ++ groupSpecBy key []
    rw [groupSpecBy]
    simp
  | c :: rest, acc, hNd => by
    show groupLoop key (dictAppend acc (key c) c) rest = _
    by_cases hmem : key c ∈ acc.map Prod.fst
    · have hNd' : ((dictAppend acc (key c) c).map Prod.fst).Nodup := by
        rw [keys_dictAppend_mem acc (key c) c hmem]
        exact hNd
      rw [groupLoop_eq key rest (dictAppend acc (key c) c) hNd']
      rw [keys_dictAppend_mem acc (key c) c hmem]
      rw [extendAcc_dictAppend key acc c rest hmem hNd]
      congr 1
      have hdec : ¬((fun x => !decide (key x ∈ acc.map Prod.fst)) c = true) := by
        simp [hmem]
      rw [@List.filter_cons_of_neg _ (fun x => !decide (key x ∈ acc.map Prod.fst)) c rest hdec]
    · rw [dictAppend_not_mem acc (key c) c hmem]
      have hkeys : ((acc ++ [(key c, [c])]).map Prod.fst)
          = acc.map Prod.fst ++ [key c] := by simp
      have hNd' : (((acc ++ [(key c, [c])]).map Prod.fst)).Nodup := by
        rw [hkeys]
        exact hNd.append (List.nodup_singleton _)
          (fun a ha hb => hmem ((List.mem_singleton.mp hb) ▸ ha))
      rw [groupLoop_eq key rest (acc ++ [(key c, [c])]) hNd']
      rw [hkeys, extendAcc_append_single]
      have hfe : rest.filter (fun x => !decide (key x ∈ acc.map Prod.fst ++ [key c]))
          = (rest.filter (fun x => !decide (key x ∈ acc.map Prod.fst))).filter
              (fun x => !decide (key x = key c)) := by
        rw [List.filter_filter]
        apply List.filter_congr
        intro x _
        by_cases h1 : key x ∈ acc.map Prod.fst
        · have h2 : key x ∈ acc.map Prod.fst ++ [key c] :=
            List.mem_append.mpr (Or.inl h1)
          simp [h1, h2]
        · by_cases h3 : key x = key c
          · have h2 : key x ∈ acc.map Prod.fst ++ [key c] :=
              List.mem_append.mpr (Or.inr (List.mem_singleton.mpr h3))
            simp [h2, h3]
          · have h2 : key x ∉ acc.map Prod.fst ++ [key c] := by
              intro hin
              rcases List.mem_append.mp hin with h | h
              · exact h1 h
              · exact h3 (List.mem_singleton.mp h)
            simp [h1, h2, h3]
      have hff : (rest.filter (fun x => !decide (key x ∈ acc.map Prod.fst))).filter
            (fun x => decide (key x = key c))
          = rest.filter (fun x => decide (key x = key c)) := by
        rw [List.filter_filter]
        apply List.filter_congr
        intro x _
        by_cases h3 : key x = key c
        · have h1 : key x ∉ acc.map Prod.fst := fun hin => hmem (h3 ▸ hin)
          rw [decide_eq_true h3, decide_eq_false h1]
          rfl
        · rw [decide_eq_false h3]
          rfl
      rw [hfe]
      rw [extendAcc_cons_not_mem key acc c rest hmem]
      have hdec : ((fun x => !decide (key x ∈ acc.map Prod.fst)) c = true) := by
        simp [hmem]
      rw [@List.filter_cons_of_pos _ (fun x => !decide (key x ∈ acc.map Prod.fst)) c rest hdec]
      rw [groupSpecBy_cons, hff]
      rw [List.append_assoc]
      rfl

/-- Computer entry with OS `Windows Server 2016`, identity `SRV1`. -/
def compSrv1 : LdapEntry :=
  ⟨[("cn", ⟨"cn", .str "SRV1", [.str "SRV1"], true⟩),
    ("operatingSystem",
      ⟨"operatingSystem", .str "Windows Server 2016", [.str "Windows Server 2016"], true⟩)]⟩

/-- Computer entry with OS `Windows Server 2016`, identity `SRV2`. -/
def compSrv2 : LdapEntry :=
  ⟨[("cn", ⟨"cn", .str "SRV2", [.str "SRV2"], true⟩),
    ("operatingSystem",
      ⟨"operatingSystem", .str "Windows Server 2016", [.str "Windows Server 2016"], true⟩)]⟩

/-- Computer entry without an `operatingSystem` attribute. -/
def compNoOS : LdapEntry :=
  ⟨[("cn", ⟨"cn", .str "SRV3", [.str "SRV3"], true⟩)]⟩

/-- Equality of the association-list representatives: the grouping loop
produces exactly `groupSpecBy` — one key per first occurrence, in
first-occurrence order, each key's member list the input-order sublist of
the items carrying that key. The pair ORDER of both sides lives in the
representative, not in the hash-ordered Python 2 dict; only
permutation-invariant consequences of this equality are facts of the
program. -/
lemma sortComputersByOS_eq_groupSpec :
    ∀ items : List LdapEntry, sortComputersByOS items = groupSpecBy osKey items := by
  intro items
  unfold sortComputersByOS
  rw [groupLoop_eq osKey items [] (by simp)]
  have h1 : extendAcc osKey [] items = [] := rfl
  have h2 : items.filter (fun x => !decide (osKey x ∈ ([] : List (AttrValue × List LdapEntry)).map Prod.fst)) = items := by
    apply List.filter_eq_self.mpr
    intro a _
    simp
  rw [h1, h2]
  rfl

/-- Concrete three-computer scenario evaluated on the representative. -/
lemma sortComputersByOS_example :
    sortComputersByOS [compSrv1, compSrv2, compNoOS]
      = [(.str "Windows Server 2016", [compSrv1, compSrv2]),
         (.str "Unknown", [compNoOS])] := by
  rw [sortComputersByOS_eq_groupSpec [compSrv1, compSrv2, compNoOS]]
  rw [groupSpecBy_cons]
  have hf1 : List.filter (fun x => decide (osKey x = osKey compSrv1))
      [compSrv2, compNoOS] = [compSrv2] := by decide
  have hf2 : List.filter (fun x => !decide (osKey x = osKey compSrv1))
      [compSrv2, compNoOS] = [compNoOS] := by decide
  rw [hf1, hf2]
  rw [groupSpecBy_cons]
  rw [show List.filter (fun x => decide (osKey x = osKey compNoOS))
      ([] : List LdapEntry) = [] from rfl]
  rw [show List.filter (fun x => !decide (osKey x = osKey compNoOS))
      ([] : List LdapEntry) = [] from rfl]
  rw [groupSpecBy]
  rw [show osKey compSrv1 = .str "Windows Server 2016" from rfl]
  rw [show osKey compNoOS = .str "Unknown" from rfl]

/-- CPython 2.7 string hash (64-bit build, default non-randomized), the hash
that places the grouping dicts' keys: `x = s[0] << 7`, then
`x = (1000003 * x) XOR code(c)` over all characters, then `x XOR len(s)`,
all in a 64-bit machine word; the reserved value `-1` (all ones) is replaced
by `-2`. ASCII `str` and `unicode` keys hash identically. -/
def py2StringHash (s : String) : Nat :=
  match s.data with
  | [] => 0
  | c0 :: _ =>
    let x1 := s.data.foldl
      (fun x c => ((1000003 * x) % 2 ^ 64) ^^^ c.toNat)
      ((c0.toNat <<< 7) % 2 ^ 64)
    let x2 := x1 ^^^ s.data.length
    if x2 = 2 ^ 64 - 1 then 2 ^ 64 - 2 else x2

/-- Probe sequence of CPython's `lookdict` on the eight-slot table a small
dict uses (fewer than six distinct keys, so no resize happens): start at
`hash mod 8`; on a collision `i = 5*i + perturb + 1` in a 64-bit word with
`perturb` (initially the hash) shifted right by five each step. The fuel
bounds the loop and is never exhausted on the modelled inputs. -/
def py2ProbeAux (table : List (Option String)) (s : String) :
    Nat → Nat → Nat → Nat
  | 0, i, _ => i % 8
  | fuel + 1, i, perturb =>
    match table.getD (i % 8) none with
    | none => i % 8
    | some t =>
      if t = s then i % 8
      else py2ProbeAux table s fuel ((5 * i + perturb + 1) % 2 ^ 64) (perturb / 2 ^ 5)

/-- Slot at which CPython 2 stores (or finds) key `s` in the table. -/
def py2FindSlot (table : List (Option String)) (s : String) : Nat :=
  py2ProbeAux table s 64 (py2StringHash s % 8) (py2StringHash s)

/-- Insertion of a key into the eight-slot table. -/
def py2Insert (table : List (Option String)) (s : String) : List (Option String) :=
  table.set (py2FindSlot table s) (some s)

/-- Hash table of a small CPython 2 dict after inserting the keys in order. -/
def py2Table (keys : List String) : List (Option String) :=
  keys.foldl py2Insert (List.replicate 8 none)

/-- Key iteration order of a small CPython 2 string-keyed dict, as
`iteritems()`/`keys()` scan the slots in index order: the order in which the
grouped reports actually render the groups. -/
def py2DictKeyOrder (keys : List String) : List String :=
  (py2Table keys).filterMap id

/-- Key strings of the by-OS grouping in first-creation order: the order the
claim asserts for the rendered keys, and the order in which the loop first
assigns each dict key. -/
def groupKeyStrings (items : List LdapEntry) : List String :=
  (sortComputersByOS items).map (fun p => strOf p.1)

/-- Counterexample to C6 as stated: for the two-computer input whose first
derived key is `"Unknown"`, the first-occurrence order is
`["Unknown", "Windows Server 2016"]`, but the CPython 2 dict stores
`"Windows Server 2016"` in slot 0 and `"Unknown"` in slot 1, so iteration
renders the keys in the opposite order — the claimed first-occurrence key
ordering is not a property of the program. -/
theorem claim_C6_cex :
    groupKeyStrings [compNoOS, compSrv1] = ["Unknown", "Windows Server 2016"]
    ∧ py2DictKeyOrder (groupKeyStrings [compNoOS, compSrv1])
        = ["Windows Server 2016", "Unknown"]
    ∧ py2DictKeyOrder (groupKeyStrings [compNoOS, compSrv1])
        ≠ groupKeyStrings [compNoOS, compSrv1] := by
  refine ⟨by decide, by decide, by decide⟩

/-- C6 (amended): grouping by operating system produces exactly one group
per distinct derived key — the `operatingSystem` value when present, else
the literal `"Unknown"` — whose member list is the input-order sublist of
the computers carrying that key: the grouping equals `groupSpecBy` up to a
permutation of the groups. The key iteration order is the CPython 2
hash-table order, not first-occurrence order (see the counterexample), so
no key ordering is asserted. The claim's concrete three-computer scenario
holds in the same up-to-key-order sense. -/
theorem claim_C6 :
    (∀ items : List LdapEntry,
      List.Perm (sortComputersByOS items) (groupSpecBy osKey items))
    ∧ List.Perm (sortComputersByOS [compSrv1, compSrv2, compNoOS])
        [(.str "Windows Server 2016", [compSrv1, compSrv2]),
         (.str "Unknown", [compNoOS])] := by
  constructor
  · intro items
    rw [sortComputersByOS_eq_groupSpec items]
  · rw [sortComputersByOS_example]

/-- Python `str.split(c)` for a single-character separator. -/
def splitOnChar (c : Char) : List Char → List (List Char)
  | [] => [[]]
  | x :: rest =>
    let r := splitOnChar c rest
    if x = c then [] :: r else (x :: r.headD []) :: r.tail

/-- Digit-string value; `none` when empty or holding a non-digit. -/
def digitsVal (l : List Char) : Option Nat :=
  if l = [] then none
  else if l.all (fun c => c.isDigit) then
    some (l.foldl (fun acc c => acc * 10 + (c.toNat - 48)) 0)
  else none

/-- Model of Python `int(str)` on the modelled inputs: an optional sign
followed by one or more digits; `none` models the raised `ValueError`
(whitespace stripping is outside the modelled input domain). -/
def pyInt (l : List Char) : Option Int :=
  match l with
  | '-' :: rest => (digitsVal rest).map (fun n => -(n : Int))
  | '+' :: rest => (digitsVal rest).map (fun n => (n : Int))
  | _ => (digitsVal l).map (fun n => (n : Int))

/-- RID extraction `int(group.objectSid.value.split('-')[-1])`. -/
def sidRid (sid : String) : Option Int :=
  pyInt ((splitOnChar '-' sid.data).getLastD [])

/-- Per-group body of `mapGroupsIdsToCns`: RID from the `objectSid` value and
CN from `cn.values[0]`; `none` models the uncaught exceptions (missing
attribute, unparseable RID via `ValueError`, empty values via `IndexError`). -/
def groupRidCn (g : LdapEntry) : Option (Int × String) :=
  match lookupAttr g "objectSid" with
  | none => none
  | some sidAtt =>
    match sidRid (strOf sidAtt.value) with
    | none => none
    | some rid =>
      match lookupAttr g "cn" with
      | none => none
      | some cnAtt =>
        match cnAtt.values.head? with
        | none => none
        | some v => some (rid, strOf v)

/-- Python dict assignment `m[k] = v` on the association-list model. -/
def setKey {α β : Type} [DecidableEq α] (m : List (α × β)) (k : α) (v : β) :
    List (α × β) :=
  match m with
  | [] => [(k, v)]
  | (k0, v0) :: rest => if k0 = k then (k0, v) :: rest else (k0, v0) :: setKey rest k v

/-- Loop of `domainDumper.mapGroupsIdsToCns`; `none` aborts the whole map. -/
def mapGroupsIdsToCnsAux (m : List (Int × String)) :
    List LdapEntry → Option (List (Int × String))
  | [] => some m
  | g :: rest =>
    match groupRidCn g with
    | none => none
    | some rc => mapGroupsIdsToCnsAux (setKey m rc.1 rc.2) rest

/-- Translation of `domainDumper.mapGroupsIdsToCns`. -/
def mapGroupsIdsToCns (groups : List LdapEntry) : Option (List (Int × String)) :=
  mapGroupsIdsToCnsAux [] groups

/-- Group names a user is filed under: the unescaped first RDN of every
`memberOf` DN (the empty list when the attribute is absent — that
`LDAPAttributeError` is caught), then the primary group's name from the RID
map appended last; `none` models the uncaught `LDAPAttributeError`/`KeyError`
when `primaryGroupId` is missing, non-integer, or absent from the map. -/
def userMemberOfCns (u : LdapEntry) : List String :=
  match lookupAttr u "memberOf" with
  | some att => att.values.map (fun v => getGroupCnFromDn (strOf v))
  | none => []

/-- Primary-group resolution appended to the `memberOf` names; the source
computes the `memberOf` part first, which is total in the model, so the
sequencing is observationally identical. -/
def userGroups (cnmap : List (Int × String)) (u : LdapEntry) : Option (List String) :=
  match lookupAttr u "primaryGroupId" with
  | none => none
  | some att =>
    match att.value with
    | .int z =>
      match cnmap.lookup z with
      | some cn => some (userMemberOfCns u ++ [cn])
      | none => none
    | .str _ => none

/-- Loop of `domainDumper.sortUsersByGroup`: append the user to every
resulting group's member list; `none` aborts the whole grouping. -/
def sortUsersByGroupAux (cnmap : List (Int × String))
    (d : List (String × List LdapEntry)) :
    List LdapEntry → Option (List (String × List LdapEntry))
  | [] => some d
  | u :: rest =>
    match userGroups cnmap u with
    | none => none
    | some gs =>
      sortUsersByGroupAux cnmap (gs.foldl (fun d2 g => dictAppend d2 g u) d) rest

/-- Translation of `domainDumper.sortUsersByGroup` for an already built RID
map. -/
def sortUsersByGroup (cnmap : List (Int × String)) (items : List LdapEntry) :
    Option (List (String × List LdapEntry)) :=
  sortUsersByGroupAux cnmap [] items

/-- `sortUsersByGroup` preceded by the map construction the source performs
when `groups_cnmap` is still `None`. -/
def sortUsersByGroupFromGroups (groups items : List LdapEntry) :
    Option (List (String × List LdapEntry)) :=
  match mapGroupsIdsToCns groups with
  | none => none
  | some m => sortUsersByGroup m items

/-- Number of `memberOf` values of a user (0 when the attribute is absent). -/
def memberOfLen (u : LdapEntry) : Nat :=
  match lookupAttr u "memberOf" with
  | some att => att.values.length
  | none => 0

/-- Total number of occurrences of `u` across all member lists of a grouping. -/
def totalCount (u : LdapEntry) (d : List (String × List LdapEntry)) : Nat :=
  (d.map (fun p => p.2.count u)).sum

/-- Display name of the user's primary group: the RID-map entry of its
`primaryGroupId`. -/
def primaryGroupCn (cnmap : List (Int × String)) (u : LdapEntry) : Option String :=
  match lookupAttr u "primaryGroupId" with
  | some att =>
    match att.value with
    | .int z => cnmap.lookup z
    | .str _ => none
  | none => none

lemma totalCount_dictAppend (u v : LdapEntry) (k : String)
    (d : List (String × List LdapEntry)) :
    totalCount u (dictAppend d k v) = totalCount u d + (if v = u then 1 else 0) := by
  induction d with
  | nil =>
    show totalCount u [(k, [v])] = 0 + _
    unfold totalCount
    by_cases h : v = u
    · subst h
      simp
    · simp [List.count_singleton, h]
  | cons p rest ih =>
    obtain ⟨k0, vs⟩ := p
    show totalCount u (if k0 = k then (k0, vs ++ [v]) :: rest else (k0, vs) :: dictAppend rest k v)
        = _
    by_cases hk : k0 = k
    · rw [if_pos hk]
      unfold totalCount
      simp only [List.map_cons, List.sum_cons, List.count_append]
      by_cases h : v = u
      · subst h
        simp [List.count_singleton]
        omega
      · simp [List.count_singleton, h]
    · rw [if_neg hk]
      unfold totalCount at ih ⊢
      simp only [List.map_cons, List.sum_cons]
      rw [ih]
      omega

lemma totalCount_foldl (u x : LdapEntry) :
    ∀ (gs : List String) (d : List (String × List LdapEntry)),
      totalCount u (gs.foldl (fun d2 g => dictAppend d2 g x) d)
        = totalCount u d + gs.length * (if x = u then 1 else 0)
  | [], d => by simp
  | g :: gs, d => by
    rw [List.foldl_cons]
    rw [totalCount_foldl u x gs (dictAppend d g x)]
    rw [totalCount_dictAppend u x g d]
    simp only [List.length_cons]
    ring

lemma memberOfLen_eq (u : LdapEntry) : (userMemberOfCns u).length = memberOfLen u := by
  unfold userMemberOfCns memberOfLen
  cases hm : lookupAttr u "memberOf" <;> simp

lemma userGroups_length (cnmap : List (Int × String)) (x : LdapEntry)
    (gs : List String) (h : userGroups cnmap x = some gs) :
    gs.length = memberOfLen x + 1 := by
  unfold userGroups at h
  cases hpg : lookupAttr x "primaryGroupId" with
  | none => rw [hpg] at h; exact absurd h (by simp)
  | some att =>
    rw [hpg] at h
    simp only at h
    cases hv : att.value with
    | str s => rw [hv] at h; exact absurd h (by simp)
    | int z =>
      rw [hv] at h
      simp only at h
      cases hl : cnmap.lookup z with
      | none => rw [hl] at h; exact absurd h (by simp)
      | some cn =>
        rw [hl] at h
        simp only [Option.some.injEq] at h
        rw [← h]
        simp [memberOfLen_eq]

lemma sortAux_totalCount (cnmap : List (Int × String)) (u : LdapEntry) :
    ∀ (items : List LdapEntry) (acc d : List (String × List LdapEntry)),
      sortUsersByGroupAux cnmap acc items = some d →
      totalCount u d
        = totalCount u acc
          + ((items.filter (fun x => decide (x = u))).map
              (fun x => memberOfLen x + 1)).sum
  | [], acc, d, h => by
    simp only [sortUsersByGroupAux, Option.some.injEq] at h
    rw [← h]
    simp
  | x :: rest, acc, d, h => by
    simp only [sortUsersByGroupAux] at h
    cases hg : userGroups cnmap x with
    | none => rw [hg] at h; exact absurd h (by simp)
    | some gs =>
      rw [hg] at h
      have ih := sortAux_totalCount cnmap u rest
        (gs.foldl (fun d2 g => dictAppend d2 g x) acc) d h
      rw [ih, totalCount_foldl u x gs acc]
      rw [userGroups_length cnmap x gs hg]
      by_cases hx : x = u
      · rw [@List.filter_cons_of_pos _ (fun y => decide (y = u)) x rest
            (decide_eq_true hx)]
        simp only [List.map_cons, List.sum_cons, if_pos hx]
        omega
      · rw [@List.filter_cons_of_neg _ (fun y => decide (y = u)) x rest
            (by simp [hx])]
        simp only [if_neg hx]
        omega

/-- Membership of `u` in the member list filed under key `k`. -/
def MemAt (d : List (String × List LdapEntry)) (k : String) (u : LdapEntry) : Prop :=
  ∃ vs, d.lookup k = some vs ∧ u ∈ vs

lemma lookup_cons_eq {β : Type} (k0 k : String) (v : β) (rest : List (String × β))
    (h : k0 = k) : ((k0, v) :: rest).lookup k = some v := by
  subst h
  simp [List.lookup]

lemma lookup_cons_ne {β : Type} (k0 k : String) (v : β) (rest : List (String × β))
    (h : ¬ k0 = k) : ((k0, v) :: rest).lookup k = rest.lookup k := by
  have hb : (k == k0) = false := beq_eq_false_iff_ne.mpr (fun hh => h hh.symm)
  simp [List.lookup, hb]

lemma memAt_dictAppend_self (d : List (String × List LdapEntry)) (k : String)
    (v : LdapEntry) : MemAt (dictAppend d k v) k v := by
  induction d with
  | nil =>
    refine ⟨[v], ?_, List.mem_singleton_self v⟩
    exact lookup_cons_eq k k [v] [] rfl
  | cons p rest ih =>
    obtain ⟨k0, vs0⟩ := p
    show MemAt (if k0 = k then (k0, vs0 ++ [v]) :: rest else (k0, vs0) :: dictAppend rest k v) k v
    by_cases hk : k0 = k
    · rw [if_pos hk]
      exact ⟨vs0 ++ [v], lookup_cons_eq k0 k (vs0 ++ [v]) rest hk, by simp⟩
    · rw [if_neg hk]
      obtain ⟨vs, hvs, hmem⟩ := ih
      exact ⟨vs, (lookup_cons_ne k0 k vs0 (dictAppend rest k v) hk).trans hvs, hmem⟩

lemma memAt_dictAppend_mono (d : List (String × List LdapEntry))
    (k k2 : String) (u v : LdapEntry) (h : MemAt d k u) :
    MemAt (dictAppend d k2 v) k u := by
  induction d with
  | nil =>
    obtain ⟨vs, hvs, _⟩ := h
    simp [List.lookup] at hvs
  | cons p rest ih =>
    obtain ⟨k0, vs0⟩ := p
    obtain ⟨vs, hvs, hmem⟩ := h
    show MemAt (if k0 = k2 then (k0, vs0 ++ [v]) :: rest else (k0, vs0) :: dictAppend rest k2 v) k u
    by_cases hk : k0 = k
    · have hvs0 : vs = vs0 := by
        rw [lookup_cons_eq k0 k vs0 rest hk] at hvs
        exact (Option.some.injEq _ _ ▸ hvs).symm
      subst hvs0
      by_cases hk2 : k0 = k2
      · rw [if_pos hk2]
        exact ⟨vs ++ [v], lookup_cons_eq k0 k (vs ++ [v]) rest hk,
          List.mem_append.mpr (Or.inl hmem)⟩
      · rw [if_neg hk2]
        exact ⟨vs, lookup_cons_eq k0 k vs (dictAppend rest k2 v) hk, hmem⟩
    · rw [lookup_cons_ne k0 k vs0 rest hk] at hvs
      by_cases hk2 : k0 = k2
      · rw [if_pos hk2]
        exact ⟨vs, (lookup_cons_ne k0 k (vs0 ++ [v]) rest hk).trans hvs, hmem⟩
      · rw [if_neg hk2]
        obtain ⟨vs2, hvs2, hmem2⟩ := ih ⟨vs, hvs, hmem⟩
        exact ⟨vs2, (lookup_cons_ne k0 k vs0 (dictAppend rest k2 v) hk).trans hvs2, hmem2⟩

lemma memAt_foldl_mono (u v : LdapEntry) (k : String) :
    ∀ (gs : List String) (d : List (String × List LdapEntry)),
      MemAt d k u → MemAt (gs.foldl (fun d2 g => dictAppend d2 g v) d) k u
  | [], _, h => h
  | g :: gs, d, h => by
    rw [List.foldl_cons]
    exact memAt_foldl_mono u v k gs (dictAppend d g v) (memAt_dictAppend_mono d k g u v h)

lemma memAt_foldl_self (x : LdapEntry) (k : String) :
    ∀ (gs : List String) (d : List (String × List LdapEntry)),
      k ∈ gs → MemAt (gs.foldl (fun d2 g => dictAppend d2 g x) d) k x
  | [], _, h => absurd h (List.not_mem_nil k)
  | g :: gs, d, h => by
    rw [List.foldl_cons]
    rcases List.mem_cons.mp h with h | h
    · subst h
      exact memAt_foldl_mono x x k gs (dictAppend d k x) (memAt_dictAppend_self d k x)
    · exact memAt_foldl_self x k gs (dictAppend d g x) h

lemma memAt_sortAux_mono (cnmap : List (Int × String)) (k : String) (u : LdapEntry) :
    ∀ (items : List LdapEntry) (acc d : List (String × List LdapEntry)),
      sortUsersByGroupAux cnmap acc items = some d → MemAt acc k u → MemAt d k u
  | [], acc, d, h, hm => by
    simp only [sortUsersByGroupAux, Option.some.injEq] at h
    exact h ▸ hm
  | x :: rest, acc, d, h, hm => by
    simp only [sortUsersByGroupAux] at h
    cases hg : userGroups cnmap x with
    | none => rw [hg] at h; exact absurd h (by simp)
    | some gs =>
      rw [hg] at h
      exact memAt_sortAux_mono cnmap k u rest _ d h (memAt_foldl_mono u x k gs acc hm)

lemma userGroups_primary_mem (cnmap : List (Int × String)) (x : LdapEntry)
    (gs : List String) (h : userGroups cnmap x = some gs) :
    ∃ cn, primaryGroupCn cnmap x = some cn ∧ cn ∈ gs := by
  unfold userGroups at h
  cases hpg : lookupAttr x "primaryGroupId" with
  | none => rw [hpg] at h; exact absurd h (by simp)
  | some att =>
    rw [hpg] at h
    simp only at h
    cases hv : att.value with
    | str s => rw [hv] at h; exact absurd h (by simp)
    | int z =>
      rw [hv] at h
      simp only at h
      cases hl : cnmap.lookup z with
      | none => rw [hl] at h; exact absurd h (by simp)
      | some cn =>
        rw [hl] at h
        simp only [Option.some.injEq] at h
        have hp : primaryGroupCn cnmap x = some cn := by
          unfold primaryGroupCn
          rw [hpg]
          simp only
          rw [hv]
          simp only
          exact hl
        exact ⟨cn, hp, h ▸ List.mem_append.mpr (Or.inr (List.mem_singleton_self cn))⟩

lemma sortAux_primary_memAt (cnmap : List (Int × String)) (u : LdapEntry) :
    ∀ (items : List LdapEntry) (acc d : List (String × List LdapEntry)),
      sortUsersByGroupAux cnmap acc items = some d → u ∈ items →
      ∃ cn, primaryGroupCn cnmap u = some cn ∧ MemAt d cn u
  | [], _, _, _, hmem => absurd hmem (List.not_mem_nil u)
  | x :: rest, acc, d, h, hmem => by
    simp only [sortUsersByGroupAux] at h
    cases hg : userGroups cnmap x with
    | none => rw [hg] at h; exact absurd h (by simp)
    | some gs =>
      rw [hg] at h
      rcases List.mem_cons.mp hmem with hx | hx
      · subst hx
        obtain ⟨cn, hcn, hcngs⟩ := userGroups_primary_mem cnmap u gs hg
        exact ⟨cn, hcn, memAt_sortAux_mono cnmap cn u rest _ d h
          (memAt_foldl_self u cn gs acc hcngs)⟩
      · exact sortAux_primary_memAt cnmap u rest _ d h hx

/-- C2: when the by-membership grouping succeeds, a user occurring once in
the input appears exactly `1 + |memberOf|` times across all member lists
(memberships are never deduplicated or dropped), and in particular at least
once: it is a member of the list filed under its resolved primary group. -/
theorem claim_C2 (cnmap : List (Int × String)) (items : List LdapEntry)
    (d : List (String × List LdapEntry)) (u : LdapEntry)
    (hd : sortUsersByGroup cnmap items = some d)
    (hu : items.count u = 1) :
    totalCount u d = 1 + memberOfLen u
    ∧ ∃ cn vs, primaryGroupCn cnmap u = some cn
        ∧ d.lookup cn = some vs ∧ u ∈ vs := by
  constructor
  · have h := sortAux_totalCount cnmap u items [] d hd
    rw [List.filter_eq] at h
    rw [hu] at h
    simp only [List.replicate, List.map_cons, List.map_nil, List.sum_cons,
      List.sum_nil] at h
    rw [h]
    simp [totalCount]
    omega
  · have hmem : u ∈ items := by
      have : 0 < items.count u := by omega
      exact List.count_pos_iff.mp this
    obtain ⟨cn, hcn, vs, hvs, hm⟩ := sortAux_primary_memAt cnmap u items [] d hd hmem
    exact ⟨cn, vs, hcn, hvs, hm⟩

/-- Concrete RID map resolving RID 513. -/
def cnmapSample : List (Int × String) := [(513, "Domain Users")]

/-- Concrete user in one explicit group with primary group 513. -/
def userSample : LdapEntry :=
  ⟨[("sAMAccountName", ⟨"sAMAccountName", .str "alice", [.str "alice"], true⟩),
    ("memberOf", ⟨"memberOf", .str "CN=Admins,DC=test,DC=local",
      [.str "CN=Admins,DC=test,DC=local"], true⟩),
    ("primaryGroupId", ⟨"primaryGroupId", .int 513, [.int 513], true⟩)]⟩

/-- Witness for C2 at a concrete grouping. -/
theorem claim_C2_witness :
    totalCount userSample [("Admins", [userSample]), ("Domain Users", [userSample])]
      = 1 + memberOfLen userSample
    ∧ ∃ cn vs, primaryGroupCn cnmapSample userSample = some cn
        ∧ [("Admins", [userSample]), ("Domain Users", [userSample])].lookup cn = some vs
        ∧ userSample ∈ vs :=
  claim_C2 cnmapSample [userSample]
    [("Admins", [userSample]), ("Domain Users", [userSample])] userSample
    (by decide) (by decide)

lemma mapAux_none (groups : List LdapEntry) :
    ∀ (m : List (Int × String)), (∃ g ∈ groups, groupRidCn g = none) →
      mapGroupsIdsToCnsAux m groups = none := by
  induction groups with
  | nil => intro m h; obtain ⟨g, hg, _⟩ := h; exact absurd hg (List.not_mem_nil g)
  | cons g0 rest ih =>
    intro m h
    show (match groupRidCn g0 with
          | none => none
          | some rc => mapGroupsIdsToCnsAux (setKey m rc.1 rc.2) rest) = none
    cases hg0 : groupRidCn g0 with
    | none => rfl
    | some rc =>
      obtain ⟨g, hg, hgn⟩ := h
      rcases List.mem_cons.mp hg with he | he
      · rw [he] at hgn
        rw [hgn] at hg0
        exact absurd hg0 (by simp)
      · exact ih (setKey m rc.1 rc.2) ⟨g, he, hgn⟩

lemma sortAux_none (cnmap : List (Int × String)) (items : List LdapEntry) :
    ∀ (acc : List (String × List LdapEntry)),
      (∃ x ∈ items, userGroups cnmap x = none) →
      sortUsersByGroupAux cnmap acc items = none := by
  induction items with
  | nil => intro acc h; obtain ⟨x, hx, _⟩ := h; exact absurd hx (List.not_mem_nil x)
  | cons x0 rest ih =>
    intro acc h
    show (match userGroups cnmap x0 with
          | none => none
          | some gs =>
            sortUsersByGroupAux cnmap (gs.foldl (fun d2 g => dictAppend d2 g x0) acc) rest)
        = none
    cases hg0 : userGroups cnmap x0 with
    | none => rfl
    | some gs =>
      obtain ⟨x, hx, hxn⟩ := h
      rcases List.mem_cons.mp hx with he | he
      · rw [he] at hxn
        rw [hxn] at hg0
        exact absurd hg0 (by simp)
      · exact ih _ ⟨x, he, hxn⟩

/-- C3 (amended): a group whose SID's last dash-delimited token does not
parse as an integer makes the whole RID-map construction fail — the raised
`ValueError` propagates and aborts the run, it is not handled per entity —
and a user whose integer primary-group RID is absent from the map likewise
aborts the whole by-membership grouping via the uncaught `KeyError`; no
skip or `"Unknown"` substitution exists. -/
theorem claim_C3 :
    (∀ (groups : List LdapEntry) (g : LdapEntry) (att : LdapAttribute),
      g ∈ groups → lookupAttr g "objectSid" = some att →
      sidRid (strOf att.value) = none → mapGroupsIdsToCns groups = none)
    ∧ (∀ (cnmap : List (Int × String)) (items : List LdapEntry)
        (u : LdapEntry) (att : LdapAttribute) (z : Int),
      u ∈ items → lookupAttr u "primaryGroupId" = some att →
      att.value = .int z → cnmap.lookup z = none →
      sortUsersByGroup cnmap items = none) := by
  constructor
  · intro groups g att hg hsid hrid
    apply mapAux_none groups []
    refine ⟨g, hg, ?_⟩
    unfold groupRidCn
    rw [hsid]
    simp only
    rw [hrid]
  · intro cnmap items u att z hu hpg hv hl
    apply sortAux_none cnmap items []
    refine ⟨u, hu, ?_⟩
    unfold userGroups
    rw [hpg]
    simp only
    rw [hv]
    simp only
    rw [hl]

/-- Group entry whose SID's last token is not an integer. -/
def groupBadSid : LdapEntry :=
  ⟨[("cn", ⟨"cn", .str "BadGroup", [.str "BadGroup"], true⟩),
    ("objectSid", ⟨"objectSid", .str "S-1-5-21-XYZ", [.str "S-1-5-21-XYZ"], true⟩)]⟩

/-- Well-formed group entry with RID 513. -/
def groupGood : LdapEntry :=
  ⟨[("cn", ⟨"cn", .str "Domain Users", [.str "Domain Users"], true⟩),
    ("objectSid", ⟨"objectSid", .str "S-1-5-21-1-513", [.str "S-1-5-21-1-513"], true⟩)]⟩

/-- User whose primary-group RID 999 is not in the map built from
`groupGood`. -/
def userUnresolved : LdapEntry :=
  ⟨[("sAMAccountName", ⟨"sAMAccountName", .str "bob", [.str "bob"], true⟩),
    ("primaryGroupId", ⟨"primaryGroupId", .int 999, [.int 999], true⟩)]⟩

/-- Counterexample to C3 as stated: one malformed SID aborts the whole map
(the well-formed group is dropped too, nothing is surfaced per entity), and
one unresolved primary-group RID aborts the whole grouping (the resolvable
user `userSample` is dropped too). -/
theorem claim_C3_cex :
    mapGroupsIdsToCns [groupGood, groupBadSid] = none
    ∧ sortUsersByGroupFromGroups [groupGood] [userUnresolved, userSample] = none
    ∧ mapGroupsIdsToCns [groupGood] = some [(513, "Domain Users")] := by
  refine ⟨by decide, by decide, by decide⟩

/-- Witness for C3 (amended) at concrete inputs. -/
theorem claim_C3_witness :
    mapGroupsIdsToCns [groupBadSid] = none
    ∧ sortUsersByGroup [(513, "Domain Users")] [userUnresolved] = none :=
  ⟨claim_C3.1 [groupBadSid] groupBadSid
      ⟨"objectSid", .str "S-1-5-21-XYZ", [.str "S-1-5-21-XYZ"], true⟩
      (by decide) (by decide) (by decide),
   claim_C3.2 [(513, "Domain Users")] [userUnresolved] userUnresolved
      ⟨"primaryGroupId", .int 999, [.int 999], true⟩ 999
      (by decide) (by decide) rfl (by decide)⟩

/-- Files written by `generateUsersReport`, in write order (each enabled
format writes `basename.ext`). -/
def generateUsersReportFiles (cfg : domainDumpConfig) : List String :=
  (if cfg.outputhtml then [cfg.usersfile ++ ".html"] else [])
    ++ (if cfg.outputjson then [cfg.usersfile ++ ".json"] else [])
    ++ (if cfg.outputgrep then [cfg.usersfile ++ ".grep"] else [])

/-- Files written by `generateGroupsReport`. -/
def generateGroupsReportFiles (cfg : domainDumpConfig) : List String :=
  (if cfg.outputhtml then [cfg.groupsfile ++ ".html"] else [])
    ++ (if cfg.outputjson then [cfg.groupsfile ++ ".json"] else [])
    ++ (if cfg.outputgrep then [cfg.groupsfile ++ ".grep"] else [])

/-- Files written by `generateComputersReport`. -/
def generateComputersReportFiles (cfg : domainDumpConfig) : List String :=
  (if cfg.outputhtml then [cfg.computersfile ++ ".html"] else [])
    ++ (if cfg.outputjson then [cfg.computersfile ++ ".json"] else [])
    ++ (if cfg.outputgrep then [cfg.computersfile ++ ".grep"] else [])

/-- Files written by `generatePolicyReport`. -/
def generatePolicyReportFiles (cfg : domainDumpConfig) : List String :=
  (if cfg.outputhtml then [cfg.policyfile ++ ".html"] else [])
    ++ (if cfg.outputjson then [cfg.policyfile ++ ".json"] else [])
    ++ (if cfg.outputgrep then [cfg.policyfile ++ ".grep"] else [])

/-- Files written by `generateUsersByGroupReport`: the source has html and
json branches only — no grep output exists for this grouped report. -/
def generateUsersByGroupReportFiles (cfg : domainDumpConfig) : List String :=
  (if cfg.outputhtml then [cfg.users_by_group ++ ".html"] else [])
    ++ (if cfg.outputjson then [cfg.users_by_group ++ ".json"] else [])

/-- Files written by `generateComputersByOsReport`: html and json branches
only — no grep output exists for this grouped report. -/
def generateComputersByOsReportFiles (cfg : domainDumpConfig) : List String :=
  (if cfg.outputhtml then [cfg.computers_by_os ++ ".html"] else [])
    ++ (if cfg.outputjson then [cfg.computers_by_os ++ ".json"] else [])

/-- Files written by one `domainDump` run, in the source's report order
(users, groups, computers, users-by-group, computers-by-OS, policy). -/
def domainDumpFiles (cfg : domainDumpConfig) : List String :=
  generateUsersReportFiles cfg
    ++ generateGroupsReportFiles cfg
    ++ generateComputersReportFiles cfg
    ++ generateUsersByGroupReportFiles cfg
    ++ generateComputersByOsReportFiles cfg
    ++ generatePolicyReportFiles cfg

/-- Counterexample to C8 as stated: with all three formats enabled (the
default), the grouped reports write no `.grep` file. -/
theorem claim_C8_cex :
    cfgDefault.outputgrep = true
    ∧ "domain_computers_by_os.grep" ∉ domainDumpFiles cfgDefault
    ∧ "domain_users_by_group.grep" ∉ domainDumpFiles cfgDefault := by
  refine ⟨rfl, by decide, by decide⟩

/-- C8 (amended): with all three formats enabled, each of the four plain
reports writes `R.html`, `R.json` and `R.grep`, but the two grouped reports
write only `R.html` and `R.json` — their generators have no grep branch. -/
theorem claim_C8 (cfg : domainDumpConfig)
    (h1 : cfg.outputhtml = true) (h2 : cfg.outputjson = true)
    (h3 : cfg.outputgrep = true) :
    domainDumpFiles cfg
      = [cfg.usersfile ++ ".html", cfg.usersfile ++ ".json", cfg.usersfile ++ ".grep",
         cfg.groupsfile ++ ".html", cfg.groupsfile ++ ".json", cfg.groupsfile ++ ".grep",
         cfg.computersfile ++ ".html", cfg.computersfile ++ ".json",
         cfg.computersfile ++ ".grep",
         cfg.users_by_group ++ ".html", cfg.users_by_group ++ ".json",
         cfg.computers_by_os ++ ".html", cfg.computers_by_os ++ ".json",
         cfg.policyfile ++ ".html", cfg.policyfile ++ ".json",
         cfg.policyfile ++ ".grep"] := by
  unfold domainDumpFiles generateUsersReportFiles generateGroupsReportFiles
    generateComputersReportFiles generateUsersByGroupReportFiles
    generateComputersByOsReportFiles generatePolicyReportFiles
  rw [h1, h2, h3]
  simp

/-- Witness for C8 (amended) at the default configuration. -/
theorem claim_C8_witness :
    domainDumpFiles cfgDefault
      = ["domain_users.html", "domain_users.json", "domain_users.grep",
         "domain_groups.html", "domain_groups.json", "domain_groups.grep",
         "domain_computers.html", "domain_computers.json", "domain_computers.grep",
         "domain_users_by_group.html", "domain_users_by_group.json",
         "domain_computers_by_os.html", "domain_computers_by_os.json",
         "domain_policy.html", "domain_policy.json", "domain_policy.grep"] :=
  claim_C8 cfgDefault rfl rfl rfl
